import Mathlib

/-!
# namenode_exporter: the scrape cycle of `Exporter`

A shallow embedding of `namenode_exporter.go`: the constructor `NewExporter`, and the two
methods `Describe` and `Collect` of the `prometheus.Collector` interface.

* Go's `interface{}` holding a decoded JSON document is the type `Value`
  (`nil`, `bool`, `float64`, `string`, `[]interface{}`, `map[string]interface{}`).
* A `float64` is kept as its bit pattern: the program never computes with it, it moves it from
  the document into a gauge, and a gauge stores exactly that pattern.
* What the network and the decoder hand to one call of `Collect` is the argument `Fetch`.
* A channel is the list of the values sent on it so far.
* A Go panic ends the call; the state reached at that point is kept in the outcome.
-/

namespace NamenodeExporter

/-! ## Values -/

/-- An IEEE-754 binary64 number, as the bit pattern `math.Float64bits` gives. -/
structure Float64 where
  bits : Nat
deriving DecidableEq, Repr

/-- The Go value `json.Unmarshal` stores in an `interface{}`. `null` is Go's `nil`. -/
inductive Value where
  | null
  | bool (b : Bool)
  | num (x : Float64)
  | str (s : String)
  | arr (xs : List Value)
  | obj (kvs : List (String × Value))

/-- The binding of `key` in a decoded object, the bindings listed in document order: the decoder
stores into the map as it reads, so a later binding of the same key replaces an earlier one. -/
def mapGet? : List (String × Value) → String → Option Value
  | [], _ => none
  | (k, v) :: rest, key =>
    match mapGet? rest key with
    | some w => some w
    | none => if k = key then some v else none

/-- Go's `m[key]` on a `map[string]interface{}`: the zero value `nil` when the key is absent. -/
def mapIndex (m : List (String × Value)) (key : String) : Value :=
  (mapGet? m key).getD Value.null

/-- Go's `v == s` for `v` an `interface{}` and `s` a string constant: true exactly when the
dynamic type of `v` is `string` and the strings agree; any other dynamic type compares unequal. -/
def ifaceEqString (v : Value) (s : String) : Bool :=
  match v with
  | Value.str t => decide (t = s)
  | _ => false

/-! ## The metrics library, as far as the exporter uses it -/

/-- The options `prometheus.NewGauge` takes (the fields the exporter fills in, and `Subsystem`,
which it leaves at the zero value). -/
structure GaugeOpts where
  Namespace : String
  Subsystem : String
  Name : String
  Help : String
deriving DecidableEq, Repr

/-- A metric descriptor: the fully qualified name and the help text. -/
structure Desc where
  fqName : String
  help : String
deriving DecidableEq, Repr

/-- The library function `prometheus.BuildFQName`: the non-empty parts joined by `_`, and the
empty string when the name itself is empty. -/
def BuildFQName (ns subsystem name : String) : String :=
  if name = "" then ""
  else if ns ≠ "" ∧ subsystem ≠ "" then ns ++ "_" ++ subsystem ++ "_" ++ name
  else if ns ≠ "" then ns ++ "_" ++ name
  else if subsystem ≠ "" then subsystem ++ "_" ++ name
  else name

/-- A gauge: its descriptor and the bit pattern of its current value. -/
structure Gauge where
  desc : Desc
  val : Float64
deriving DecidableEq, Repr

/-- The library function `prometheus.NewGauge`: a gauge whose value is zero. -/
def NewGauge (opts : GaugeOpts) : Gauge :=
  { desc := { fqName := BuildFQName opts.Namespace opts.Subsystem opts.Name, help := opts.Help },
    val := { bits := 0 } }

/-- The method `Gauge.Set`: the value is overwritten. -/
def Gauge.Set (g : Gauge) (v : Float64) : Gauge :=
  { g with val := v }

/-- What a gauge sends on the metric channel: itself, read as descriptor and current value. -/
structure Metric where
  desc : Desc
  value : Float64
deriving DecidableEq, Repr

/-- The method `Gauge.Collect`: the gauge is sent on the channel. -/
def Gauge.Collect (g : Gauge) (ch : List Metric) : List Metric :=
  ch ++ [{ desc := g.desc, value := g.val }]

/-- The method `Gauge.Describe`: the descriptor is sent on the channel. -/
def Gauge.Describe (g : Gauge) (ch : List Desc) : List Desc :=
  ch ++ [g.desc]

/-! ## The exporter -/

/-- The constant `namespace` of the source. -/
def namespaceConst : String := "namenode"

/-- The string the source compares each bean's `name` with. -/
def targetName : String := "Hadoop:service=NameNode,name=FSNamesystem"

/-- The struct `Exporter`. -/
structure Exporter where
  url : String
  MissingBlocks : Gauge
  CapacityTotal : Gauge
  BlocksTotal : Gauge
deriving DecidableEq, Repr

/-- The function `NewExporter`. -/
def NewExporter (url : String) : Exporter :=
  { url := url,
    MissingBlocks := NewGauge
      { Namespace := namespaceConst, Subsystem := "", Name := "MissingBlocks",
        Help := "MissingBlocks" },
    CapacityTotal := NewGauge
      { Namespace := namespaceConst, Subsystem := "", Name := "CapacityTotal",
        Help := "CapacityTotal" },
    BlocksTotal := NewGauge
      { Namespace := namespaceConst, Subsystem := "", Name := "BlocksTotal",
        Help := "BlocksTotal" } }

/-- The method `Exporter.Describe`: the exporter after the call, which assigns to none of its
fields, and the channel. -/
def Exporter.Describe (e : Exporter) (ch : List Desc) : Exporter × List Desc :=
  let ch1 := e.MissingBlocks.Describe ch
  let ch2 := e.CapacityTotal.Describe ch1
  let ch3 := e.BlocksTotal.Describe ch2
  (e, ch3)

/-! ## One scrape -/

/-- A response of the source: whether `ioutil.ReadAll` reported an error, whether
`json.Unmarshal` reported one, and the value `f` holds after `json.Unmarshal`. The two are
apart: on a syntax error the decoder stores nothing and `f` stays `nil`, on a number out of the
range of `float64` it reports the error and stores the document all the same. -/
structure Response where
  readErr : Bool
  unmarshalErr : Bool
  f : Value

/-- The result of `http.Get(e.url)` seen from `Collect`: whether `err` is non-nil, and the
response (`none`: `resp` is nil, which is what a transport error gives). -/
structure Fetch where
  getErr : Bool
  resp : Option Response

/-- The run-time panics of `Collect`. -/
inductive Panic where
  | nilDereference
  | typeAssertion
deriving DecidableEq, Repr

/-- What `Collect` writes besides the channel: a line of `log.Error` for each of the three error
checks, and the `fmt.Println` of each matching bean. -/
inductive Event where
  | getError
  | readError
  | unmarshalError
  | println (bean : List (String × Value))

/-- The state a call of `Collect` works on. -/
structure CollectState where
  e : Exporter
  ch : List Metric
  out : List Event

/-- The end of a call of `Collect`: the state reached, and the panic that ended the call if one
did (`none`: the call returned). -/
structure Outcome where
  state : CollectState
  panic : Option Panic

/-- The statement `if err != nil { log.Error(err) }`. -/
def logIf (s : CollectState) (failed : Bool) (ev : Event) : CollectState :=
  if failed then { s with out := s.out ++ [ev] } else s

/-- The body of the `range` loop, lines 80 to 131, on one element of the bean list. -/
def loopBody (s : CollectState) (nameData : Value) : Outcome :=
  match nameData with
  | Value.obj nameDataMap =>
    if ifaceEqString (mapIndex nameDataMap "name") targetName then
      let s0 : CollectState := { s with out := s.out ++ [Event.println nameDataMap] }
      match mapIndex nameDataMap "MissingBlocks" with
      | Value.num x =>
        let s1 : CollectState :=
          { s0 with e := { s0.e with MissingBlocks := s0.e.MissingBlocks.Set x } }
        match mapIndex nameDataMap "CapacityTotal" with
        | Value.num y =>
          let s2 : CollectState :=
            { s1 with e := { s1.e with CapacityTotal := s1.e.CapacityTotal.Set y } }
          match mapIndex nameDataMap "BlocksTotal" with
          | Value.num z =>
            { state := { s2 with e := { s2.e with BlocksTotal := s2.e.BlocksTotal.Set z } },
              panic := none }
          | _ => { state := s2, panic := some Panic.typeAssertion }
        | _ => { state := s1, panic := some Panic.typeAssertion }
      | _ => { state := s0, panic := some Panic.typeAssertion }
    else { state := s, panic := none }
  | _ => { state := s, panic := some Panic.typeAssertion }

/-- The `range` loop over the bean list: a panic in the body ends it. -/
def rangeLoop (s : CollectState) : List Value → Outcome
  | [] => { state := s, panic := none }
  | nameData :: rest =>
    match loopBody s nameData with
    | { state := s1, panic := none } => rangeLoop s1 rest
    | stopped => stopped

/-- The method `Exporter.Collect`, on the exporter `e`, the channel `ch` and what the source
answers to this scrape. -/
def Exporter.Collect (e : Exporter) (ch : List Metric) (net : Fetch) : Outcome :=
  let s0 : CollectState := logIf { e := e, ch := ch, out := [] } net.getErr Event.getError
  match net.resp with
  | none =>
    -- `defer resp.Body.Close()` reads the field `Body` of a nil `resp`
    { state := s0, panic := some Panic.nilDereference }
  | some resp =>
    let s1 := logIf s0 resp.readErr Event.readError
    let s2 := logIf s1 resp.unmarshalErr Event.unmarshalError
    let f : Value := resp.f
    match f with
    | Value.obj m =>
      match mapIndex m "beans" with
      | Value.arr nameList =>
        match rangeLoop s2 nameList with
        | { state := s3, panic := none } =>
          let ch1 := s3.e.MissingBlocks.Collect s3.ch
          let ch2 := s3.e.CapacityTotal.Collect ch1
          let ch3 := s3.e.BlocksTotal.Collect ch2
          { state := { s3 with ch := ch3 }, panic := none }
        | stopped => stopped
      | _ => { state := s2, panic := some Panic.typeAssertion }
    | _ => { state := s2, panic := some Panic.typeAssertion }

/-! ## Vocabulary of the statements -/

/-- The three gauge values of an exporter, in the order MissingBlocks, CapacityTotal,
BlocksTotal. -/
def gaugeValues (e : Exporter) : Float64 × Float64 × Float64 :=
  (e.MissingBlocks.val, e.CapacityTotal.val, e.BlocksTotal.val)

/-- The number a decoded object binds `key` to: `none` when the key is absent or bound to
anything but a JSON number. -/
def numField? (kvs : List (String × Value)) (key : String) : Option Float64 :=
  match mapGet? kvs key with
  | some (Value.num x) => some x
  | _ => none

/-- A JSON object. -/
def isObject : Value → Bool
  | Value.obj _ => true
  | _ => false

/-- A target bean: a JSON object whose field `name` is present and is the string
`Hadoop:service=NameNode,name=FSNamesystem`. -/
def isTarget : Value → Bool
  | Value.obj kvs =>
    match mapGet? kvs "name" with
    | some (Value.str t) => decide (t = "Hadoop:service=NameNode,name=FSNamesystem")
    | _ => false
  | _ => false

/-- The fields MissingBlocks, CapacityTotal and BlocksTotal of a bean when all three are
present and JSON numbers. -/
def fieldsOf : Value → Option (Float64 × Float64 × Float64)
  | Value.obj kvs =>
    match numField? kvs "MissingBlocks", numField? kvs "CapacityTotal",
      numField? kvs "BlocksTotal" with
    | some x, some y, some z => some (x, y, z)
    | _, _, _ => none
  | _ => none

/-- A source that answered, whose body was read and decoded without error to `doc`. -/
def fetched (doc : Value) : Fetch :=
  { getErr := false, resp := some { readErr := false, unmarshalErr := false, f := doc } }

/-- A source that answered, on whose body `json.Unmarshal` reported an error after it stored
`doc` in `f`, as it does on a number out of the range of `float64`, which it stores as `nil`. -/
def storedWithError (doc : Value) : Fetch :=
  { getErr := false, resp := some { readErr := false, unmarshalErr := true, f := doc } }

/-- A source that cannot be reached: `http.Get` returns an error and no response. -/
def unreachableSource : Fetch :=
  { getErr := true, resp := none }

/-- The bean list `Collect` ranges over, when the call gets as far as the loop: the response is
there, the value the decoder left in `f` is a JSON object, and that object binds `beans` to a
list. Whether an error was reported on the way plays no part. -/
def Fetch.beanList (net : Fetch) : Option (List Value) :=
  match net.resp with
  | none => none
  | some r =>
    match r.f with
    | Value.obj m =>
      match mapIndex m "beans" with
      | Value.arr beans => some beans
      | _ => none
    | _ => none

/-- A bean the loop body passes: a JSON object that is not a target bean or has its three
numeric fields. -/
def wellFormedBean (b : Value) : Bool :=
  isObject b && (!isTarget b || (fieldsOf b).isSome)

/-- A decoded document on which `Collect` runs to its end: a JSON object binding `beans` to a
list of beans the loop body passes. -/
def wellFormedDoc : Value → Bool
  | Value.obj m =>
    match mapIndex m "beans" with
    | Value.arr beans => beans.all wellFormedBean
    | _ => false
  | _ => false

/-- A target bean whose MissingBlocks is a JSON number: the loop body gets to its first `Set`. -/
def updatesGauge : Value → Bool
  | Value.obj kvs => isTarget (Value.obj kvs) && (numField? kvs "MissingBlocks").isSome
  | _ => false

/-- The elements of the bean list the loop gets to: those before the first one its body fails
on, and that one. -/
def reachedBeans (beans : List Value) : List Value :=
  beans.takeWhile wellFormedBean ++ (beans.dropWhile wellFormedBean).take 1

/-! ## Auxiliary definitions of the proofs -/

/-- The exporter after the loop body passed the bean `b`. -/
def stepExporter (e : Exporter) (b : Value) : Exporter :=
  if isTarget b then
    match fieldsOf b with
    | some (x, y, z) =>
      { url := e.url, MissingBlocks := e.MissingBlocks.Set x,
        CapacityTotal := e.CapacityTotal.Set y, BlocksTotal := e.BlocksTotal.Set z }
    | none => e
  else e

/-- The state in which `Collect` enters the loop. -/
def loopEntry (e : Exporter) (ch : List Metric) (net : Fetch) : CollectState :=
  match net.resp with
  | none => logIf { e := e, ch := ch, out := [] } net.getErr Event.getError
  | some r =>
    logIf (logIf (logIf { e := e, ch := ch, out := [] } net.getErr Event.getError)
      r.readErr Event.readError) r.unmarshalErr Event.unmarshalError

/-- The three sends that end `Collect`, after a loop that did not panic. -/
def sendGauges (o : Outcome) : Outcome :=
  match o with
  | { state := s3, panic := none } =>
    let ch1 := s3.e.MissingBlocks.Collect s3.ch
    let ch2 := s3.e.CapacityTotal.Collect ch1
    let ch3 := s3.e.BlocksTotal.Collect ch2
    { state := { s3 with ch := ch3 }, panic := none }
  | stopped => stopped

/-! ## The documents of the scenarios -/

/-- The number 3 as a binary64 bit pattern. -/
def float3 : Float64 := { bits := 0x4008000000000000 }

/-- The number 1000.0 as a binary64 bit pattern. -/
def float1000 : Float64 := { bits := 0x408F400000000000 }

/-- The number 50 as a binary64 bit pattern. -/
def float50 : Float64 := { bits := 0x4049000000000000 }

/-- The bean of Scenario A. -/
def beanA : Value :=
  Value.obj
    [("name", Value.str "Hadoop:service=NameNode,name=FSNamesystem"),
     ("MissingBlocks", Value.num float3),
     ("CapacityTotal", Value.num float1000),
     ("BlocksTotal", Value.num float50)]

/-- The bean of Scenario B. -/
def beanB : Value :=
  Value.obj [("name", Value.str "java.lang:type=Other")]

/-- The document of Scenario A. -/
def scenarioA : Value :=
  Value.obj [("beans", Value.arr [beanA])]

/-- The document of Scenario B. -/
def scenarioB : Value :=
  Value.obj [("beans", Value.arr [beanB])]

/-- A target bean with a numeric MissingBlocks and nothing else. -/
def beanNoCapacity : Value :=
  Value.obj
    [("name", Value.str "Hadoop:service=NameNode,name=FSNamesystem"),
     ("MissingBlocks", Value.num float3)]

/-- A target bean with a numeric MissingBlocks, no CapacityTotal, and a field the decoder left
`nil` because its number was out of range. -/
def beanOutOfRange : Value :=
  Value.obj
    [("name", Value.str "Hadoop:service=NameNode,name=FSNamesystem"),
     ("MissingBlocks", Value.num float3),
     ("Extra", Value.null)]

/-- A second target bean, its three numbers differing from those of Scenario A. -/
def beanA2 : Value :=
  Value.obj
    [("name", Value.str "Hadoop:service=NameNode,name=FSNamesystem"),
     ("MissingBlocks", Value.num float50),
     ("CapacityTotal", Value.num float3),
     ("BlocksTotal", Value.num float1000)]

/-- A bean of another name that carries the three fields, none of them a number. -/
def beanOther : Value :=
  Value.obj
    [("name", Value.str "java.lang:type=Other"),
     ("MissingBlocks", Value.str "7"),
     ("CapacityTotal", Value.null),
     ("BlocksTotal", Value.arr [])]

/-- The default of the flag `namenode.jmx.url`. -/
def defaultUrl : String := "http://localhost:50070/jmx"

/-! ## The loop body, case by case -/

theorem mapIndex_eq_num_iff (kvs : List (String × Value)) (key : String) (x : Float64) :
    mapIndex kvs key = Value.num x ↔ numField? kvs key = some x := by
  unfold mapIndex numField?
  cases h : mapGet? kvs key with
  | none => simp
  | some v => cases v <;> simp

theorem mapIndex_not_num (kvs : List (String × Value)) (key : String)
    (h : numField? kvs key = none) : ∀ x, mapIndex kvs key ≠ Value.num x := by
  intro x hx
  rw [mapIndex_eq_num_iff] at hx
  rw [h] at hx
  cases hx

theorem ifaceEqString_name (kvs : List (String × Value)) :
    ifaceEqString (mapIndex kvs "name") targetName = isTarget (Value.obj kvs) := by
  unfold mapIndex isTarget ifaceEqString targetName
  cases h : mapGet? kvs "name" with
  | none => simp [h]
  | some v => cases v <;> simp [h]

theorem loopBody_skip (s : CollectState) (kvs : List (String × Value))
    (h : isTarget (Value.obj kvs) = false) :
    loopBody s (Value.obj kvs) = { state := s, panic := none } := by
  simp [loopBody, ifaceEqString_name, h]

theorem fieldsOf_eq_some (kvs : List (String × Value)) (x y z : Float64) :
    fieldsOf (Value.obj kvs) = some (x, y, z) ↔
      numField? kvs "MissingBlocks" = some x ∧ numField? kvs "CapacityTotal" = some y ∧
        numField? kvs "BlocksTotal" = some z := by
  unfold fieldsOf
  cases h1 : numField? kvs "MissingBlocks" <;> cases h2 : numField? kvs "CapacityTotal" <;>
    cases h3 : numField? kvs "BlocksTotal" <;> simp [h1, h2, h3]

theorem loopBody_set (s : CollectState) (kvs : List (String × Value)) (x y z : Float64)
    (h : isTarget (Value.obj kvs) = true) (hf : fieldsOf (Value.obj kvs) = some (x, y, z)) :
    loopBody s (Value.obj kvs) =
      { state :=
          { e := { url := s.e.url, MissingBlocks := s.e.MissingBlocks.Set x,
                   CapacityTotal := s.e.CapacityTotal.Set y,
                   BlocksTotal := s.e.BlocksTotal.Set z },
            ch := s.ch, out := s.out ++ [Event.println kvs] },
        panic := none } := by
  rw [fieldsOf_eq_some] at hf
  obtain ⟨hx, hy, hz⟩ := hf
  rw [← mapIndex_eq_num_iff] at hx hy hz
  simp [loopBody, ifaceEqString_name, h, hx, hy, hz]

theorem loopBody_fail (s : CollectState) (kvs : List (String × Value))
    (h : isTarget (Value.obj kvs) = true) (hf : fieldsOf (Value.obj kvs) = none) :
    (loopBody s (Value.obj kvs)).panic = some Panic.typeAssertion := by
  unfold loopBody
  simp only [ifaceEqString_name, h, if_true]
  split
  · split
    · split
      · next x hx _ y hy _ z hz =>
          rw [mapIndex_eq_num_iff] at hx hy hz
          have := (fieldsOf_eq_some kvs x y z).2 ⟨hx, hy, hz⟩
          rw [hf] at this
          cases this
      · rfl
    · rfl
  · rfl

theorem loopBody_wellFormed (s : CollectState) (b : Value) (h : wellFormedBean b = true) :
    (loopBody s b).panic = none ∧ (loopBody s b).state.e = stepExporter s.e b := by
  cases b with
  | obj kvs =>
    by_cases ht : isTarget (Value.obj kvs) = true
    · cases hf : fieldsOf (Value.obj kvs) with
      | none => simp [wellFormedBean, ht, hf] at h
      | some t =>
        obtain ⟨x, y, z⟩ := t
        rw [loopBody_set s kvs x y z ht hf]
        simp [stepExporter, ht, hf]
    · simp only [Bool.not_eq_true] at ht
      rw [loopBody_skip s kvs ht]
      simp [stepExporter, ht]
  | _ => simp [wellFormedBean, isObject] at h

theorem loopBody_illFormed (s : CollectState) (b : Value) (h : wellFormedBean b = false) :
    (loopBody s b).panic = some Panic.typeAssertion := by
  cases b with
  | obj kvs =>
    have ht : isTarget (Value.obj kvs) = true := by
      cases hc : isTarget (Value.obj kvs) <;> simp_all [wellFormedBean, isObject]
    have hf : fieldsOf (Value.obj kvs) = none := by
      cases hc : fieldsOf (Value.obj kvs) <;> simp_all [wellFormedBean, isObject]
    exact loopBody_fail s kvs ht hf
  | _ => rfl

theorem loopBody_ch (s : CollectState) (b : Value) : (loopBody s b).state.ch = s.ch := by
  unfold loopBody
  repeat (first | split | rfl)

theorem loopBody_frame (s : CollectState) (b : Value) :
    (loopBody s b).state.e.url = s.e.url ∧
      (loopBody s b).state.e.MissingBlocks.desc = s.e.MissingBlocks.desc ∧
      (loopBody s b).state.e.CapacityTotal.desc = s.e.CapacityTotal.desc ∧
      (loopBody s b).state.e.BlocksTotal.desc = s.e.BlocksTotal.desc := by
  unfold loopBody
  repeat (first | split | simp [Gauge.Set])

theorem loopBody_no_update (s : CollectState) (b : Value) (h : updatesGauge b = false) :
    (loopBody s b).state.e = s.e := by
  cases b with
  | obj kvs =>
    by_cases ht : isTarget (Value.obj kvs) = true
    · have hn : numField? kvs "MissingBlocks" = none := by
        cases hc : numField? kvs "MissingBlocks" <;> simp_all [updatesGauge]
      have hx := mapIndex_not_num kvs "MissingBlocks" hn
      unfold loopBody
      simp only [ifaceEqString_name, ht, if_true]
    · simp only [Bool.not_eq_true] at ht
      rw [loopBody_skip s kvs ht]
  | _ => rfl

/-! ## The loop -/

theorem rangeLoop_cons (s : CollectState) (b : Value) (rest : List Value) :
    rangeLoop s (b :: rest) =
      if (loopBody s b).panic = none then rangeLoop (loopBody s b).state rest
      else loopBody s b := by
  cases h : loopBody s b with
  | mk st p => cases p <;> simp [rangeLoop, h]

theorem rangeLoop_ch (s : CollectState) (beans : List Value) :
    (rangeLoop s beans).state.ch = s.ch := by
  induction beans generalizing s with
  | nil => rfl
  | cons b rest ih =>
    rw [rangeLoop_cons]
    split
    · rw [ih, loopBody_ch]
    · exact loopBody_ch s b

theorem rangeLoop_frame (s : CollectState) (beans : List Value) :
    (rangeLoop s beans).state.e.url = s.e.url ∧
      (rangeLoop s beans).state.e.MissingBlocks.desc = s.e.MissingBlocks.desc ∧
      (rangeLoop s beans).state.e.CapacityTotal.desc = s.e.CapacityTotal.desc ∧
      (rangeLoop s beans).state.e.BlocksTotal.desc = s.e.BlocksTotal.desc := by
  induction beans generalizing s with
  | nil => simp [rangeLoop]
  | cons b rest ih =>
    rw [rangeLoop_cons]
    have hb := loopBody_frame s b
    split
    · have hr := ih (loopBody s b).state
      exact ⟨hr.1.trans hb.1, hr.2.1.trans hb.2.1, hr.2.2.1.trans hb.2.2.1,
        hr.2.2.2.trans hb.2.2.2⟩
    · exact hb

theorem rangeLoop_panic (s : CollectState) (beans : List Value) :
    (rangeLoop s beans).panic =
      if beans.all wellFormedBean = true then none else some Panic.typeAssertion := by
  induction beans generalizing s with
  | nil => rfl
  | cons b rest ih =>
    rw [rangeLoop_cons]
    cases hb : wellFormedBean b with
    | true =>
      rw [if_pos (loopBody_wellFormed s b hb).1, ih]
      simp [hb]
    | false =>
      have hp := loopBody_illFormed s b hb
      rw [if_neg (by rw [hp]; simp), hp]
      simp [hb]

theorem rangeLoop_wellFormed (s : CollectState) (beans : List Value)
    (h : ∀ b ∈ beans, wellFormedBean b = true) :
    (rangeLoop s beans).panic = none ∧
      (rangeLoop s beans).state.e = beans.foldl stepExporter s.e := by
  induction beans generalizing s with
  | nil => exact ⟨rfl, rfl⟩
  | cons b rest ih =>
    have hb := loopBody_wellFormed s b (h b (List.mem_cons_self b rest))
    rw [rangeLoop_cons, if_pos hb.1]
    have hr := ih (loopBody s b).state (fun c hc => h c (List.mem_cons_of_mem b hc))
    rw [hb.2] at hr
    exact hr

theorem rangeLoop_filter (s : CollectState) (beans : List Value)
    (h : ∀ b ∈ beans, isObject b = true) :
    rangeLoop s (beans.filter isTarget) = rangeLoop s beans := by
  induction beans generalizing s with
  | nil => rfl
  | cons b rest ih =>
    have hrest : ∀ c ∈ rest, isObject c = true := fun c hc => h c (List.mem_cons_of_mem b hc)
    cases ht : isTarget b with
    | true =>
      rw [List.filter_cons_of_pos ht, rangeLoop_cons, rangeLoop_cons, ih _ hrest]
    | false =>
      rw [List.filter_cons_of_neg (by simp [ht]), rangeLoop_cons, ih _ hrest]
      cases b with
      | obj kvs => rw [loopBody_skip s kvs ht]; simp
      | _ => simp [isObject] at h

theorem rangeLoop_no_update (s : CollectState) (beans : List Value)
    (h : ∀ b ∈ reachedBeans beans, updatesGauge b = false) :
    (rangeLoop s beans).state.e = s.e := by
  induction beans generalizing s with
  | nil => rfl
  | cons b rest ih =>
    rw [rangeLoop_cons]
    cases hb : wellFormedBean b with
    | true =>
      have hu : updatesGauge b = false := h b (by simp [reachedBeans, hb])
      rw [if_pos (loopBody_wellFormed s b hb).1, ih, loopBody_no_update s b hu]
      intro c hc
      apply h c
      simp only [reachedBeans, List.takeWhile_cons, hb, List.dropWhile_cons] at hc ⊢
      simp only [if_true, List.cons_append, List.mem_cons]
      exact Or.inr hc
    | false =>
      have hu : updatesGauge b = false := h b (by simp [reachedBeans, hb])
      have hp := loopBody_illFormed s b hb
      rw [if_neg (by rw [hp]; simp), loopBody_no_update s b hu]

/-! ## The whole call -/

theorem logIf_frame (s : CollectState) (c : Bool) (ev : Event) :
    (logIf s c ev).e = s.e ∧ (logIf s c ev).ch = s.ch := by
  cases c <;> simp [logIf]

theorem loopEntry_frame (e : Exporter) (ch : List Metric) (net : Fetch) :
    (loopEntry e ch net).e = e ∧ (loopEntry e ch net).ch = ch := by
  unfold loopEntry
  split <;> simp [logIf_frame]

theorem sendGauges_panic (o : Outcome) : (sendGauges o).panic = o.panic := by
  obtain ⟨s, p⟩ := o
  cases p <;> rfl

theorem sendGauges_e (o : Outcome) : (sendGauges o).state.e = o.state.e := by
  obtain ⟨s, p⟩ := o
  cases p <;> rfl

theorem sendGauges_ch (o : Outcome) (h : o.panic = none) :
    (sendGauges o).state.ch = o.state.ch ++
      [{ desc := o.state.e.MissingBlocks.desc, value := o.state.e.MissingBlocks.val },
       { desc := o.state.e.CapacityTotal.desc, value := o.state.e.CapacityTotal.val },
       { desc := o.state.e.BlocksTotal.desc, value := o.state.e.BlocksTotal.val }] := by
  obtain ⟨s, p⟩ := o
  cases p with
  | none => simp [sendGauges, Gauge.Collect]
  | some q => cases h

theorem Collect_of_beanList (e : Exporter) (ch : List Metric) (net : Fetch)
    (beans : List Value) (h : net.beanList = some beans) :
    e.Collect ch net = sendGauges (rangeLoop (loopEntry e ch net) beans) := by
  obtain ⟨g, resp⟩ := net
  cases resp with
  | none => simp [Fetch.beanList] at h
  | some r =>
    obtain ⟨rd, ue, doc⟩ := r
    cases doc with
    | obj m =>
      simp only [Fetch.beanList] at h
      cases hb : mapIndex m "beans" with
      | arr l =>
        rw [hb] at h
        simp only [Option.some.injEq] at h
        subst h
        simp only [Exporter.Collect, loopEntry, hb, sendGauges]
      | _ => simp [hb] at h
    | _ => simp [Fetch.beanList] at h

theorem Collect_of_no_beanList (e : Exporter) (ch : List Metric) (net : Fetch)
    (h : net.beanList = none) :
    (e.Collect ch net).state.e = e ∧ (e.Collect ch net).state.ch = ch ∧
      (e.Collect ch net).panic ≠ none := by
  obtain ⟨g, resp⟩ := net
  cases resp with
  | none => simp [Exporter.Collect, logIf_frame]
  | some r =>
    obtain ⟨rd, ue, doc⟩ := r
    cases doc with
    | obj m =>
      simp only [Fetch.beanList] at h
      cases hb : mapIndex m "beans" with
      | arr l => simp [hb] at h
      | _ => simp [Exporter.Collect, logIf_frame, hb]
    | _ => simp [Exporter.Collect, logIf_frame]

/-- With no response the call logs the error of `http.Get` and ends at the deferred
`resp.Body.Close()`, in a nil dereference, the exporter and the channel as they were. -/
theorem Collect_unreachableSource (e : Exporter) (ch : List Metric) :
    (e.Collect ch unreachableSource).panic = some Panic.nilDereference ∧
      (e.Collect ch unreachableSource).state.e = e ∧
      (e.Collect ch unreachableSource).state.ch = ch := by
  simp [Exporter.Collect, unreachableSource, logIf]

/-- A reported decoding error does not stop the call: on a stored document whose one target
bean has a numeric MissingBlocks and no CapacityTotal the error is logged, MissingBlocks is
set, and the call ends in a type-assertion panic. -/
theorem Collect_storedWithError_sets (e : Exporter) (ch : List Metric) :
    (e.Collect ch (storedWithError
        (Value.obj [("beans", Value.arr [beanOutOfRange])]))).panic =
        some Panic.typeAssertion ∧
      gaugeValues (e.Collect ch (storedWithError
        (Value.obj [("beans", Value.arr [beanOutOfRange])]))).state.e =
        (float3, e.CapacityTotal.val, e.BlocksTotal.val) := by
  constructor <;> rfl

theorem beanList_fetched (m : List (String × Value)) (beans : List Value)
    (h : mapIndex m "beans" = Value.arr beans) :
    (fetched (Value.obj m)).beanList = some beans := by
  simp [fetched, Fetch.beanList, h]

/-! ## Folding the updates -/

theorem stepExporter_skip (e : Exporter) (b : Value) (h : isTarget b = false) :
    stepExporter e b = e := by
  simp [stepExporter, h]

theorem foldl_stepExporter_filter (e : Exporter) (beans : List Value) :
    (beans.filter isTarget).foldl stepExporter e = beans.foldl stepExporter e := by
  induction beans generalizing e with
  | nil => rfl
  | cons b rest ih =>
    cases ht : isTarget b with
    | true => rw [List.filter_cons_of_pos ht, List.foldl_cons, List.foldl_cons, ih]
    | false =>
      rw [List.filter_cons_of_neg (by simp [ht]), List.foldl_cons, stepExporter_skip e b ht, ih]

theorem foldl_stepExporter_none (e : Exporter) (beans : List Value)
    (h : ∀ c ∈ beans, isTarget c = false) : beans.foldl stepExporter e = e := by
  induction beans generalizing e with
  | nil => rfl
  | cons b rest ih =>
    rw [List.foldl_cons, stepExporter_skip e b (h b (List.mem_cons_self b rest))]
    exact ih e (fun c hc => h c (List.mem_cons_of_mem b hc))

theorem foldl_stepExporter_last (e : Exporter) (l : List Value) (b : Value) (x y z : Float64)
    (hl : l.getLast? = some b) (ht : isTarget b = true) (hf : fieldsOf b = some (x, y, z)) :
    gaugeValues (l.foldl stepExporter e) = (x, y, z) := by
  induction l generalizing e with
  | nil => simp at hl
  | cons a rest ih =>
    cases rest with
    | nil =>
      simp only [List.getLast?_singleton, Option.some.injEq] at hl
      subst hl
      simp [stepExporter, ht, hf, gaugeValues, Gauge.Set]
    | cons a2 rest2 =>
      rw [List.getLast?_cons_cons] at hl
      rw [List.foldl_cons]
      exact ih (stepExporter e a) hl

/-! ## The claims -/

/-- Claim C1: for every exporter state and every fetched body that decodes to a JSON object whose
`beans` value is a list of JSON objects, exactly one of which is a target bean, that bean
carrying numeric MissingBlocks, CapacityTotal and BlocksTotal, `Collect` returns and the three
gauges then hold exactly those three values. -/
theorem Collect_single_target_sets_gauges (e : Exporter) (ch : List Metric)
    (m : List (String × Value)) (beans : List Value) (b : Value) (x y z : Float64)
    (hbeans : mapIndex m "beans" = Value.arr beans)
    (hobj : ∀ c ∈ beans, isObject c = true)
    (hone : beans.filter isTarget = [b])
    (hf : fieldsOf b = some (x, y, z)) :
    (e.Collect ch (fetched (Value.obj m))).panic = none ∧
      gaugeValues (e.Collect ch (fetched (Value.obj m))).state.e = (x, y, z) := by
  have htb : isTarget b = true := by
    have hm : b ∈ beans.filter isTarget := by rw [hone]; exact List.mem_singleton_self b
    exact (List.mem_filter.1 hm).2
  have hwf : ∀ c ∈ beans, wellFormedBean c = true := by
    intro c hc
    cases ht : isTarget c with
    | false => simp [wellFormedBean, hobj c hc, ht]
    | true =>
      have hm : c ∈ beans.filter isTarget := List.mem_filter.2 ⟨hc, ht⟩
      rw [hone, List.mem_singleton] at hm
      subst hm
      simp [wellFormedBean, hobj c hc, hf]
  rw [Collect_of_beanList e ch _ beans (beanList_fetched m beans hbeans), sendGauges_panic,
    sendGauges_e]
  have hr := rangeLoop_wellFormed (loopEntry e ch (fetched (Value.obj m))) beans hwf
  refine ⟨hr.1, ?_⟩
  rw [hr.2, ← foldl_stepExporter_filter, hone]
  exact foldl_stepExporter_last _ [b] b x y z rfl htb hf

/-- Scenario A: on a freshly built exporter the gauges become 3, 1000.0 and 50. -/
theorem Collect_single_target_sets_gauges_witness :
    ((NewExporter defaultUrl).Collect [] (fetched scenarioA)).panic = none ∧
      gaugeValues ((NewExporter defaultUrl).Collect [] (fetched scenarioA)).state.e =
        (float3, float1000, float50) :=
  Collect_single_target_sets_gauges (NewExporter defaultUrl) [] [("beans", Value.arr [beanA])]
    [beanA] beanA float3 float1000 float50 rfl (by decide) rfl rfl

/-- Claim C2: for every exporter state and every fetched body that decodes to a JSON object whose
`beans` value is a list of JSON objects none of which is a target bean (the empty list too),
`Collect` returns and the three gauges hold their values of before the call. -/
theorem Collect_no_target_keeps_gauges (e : Exporter) (ch : List Metric)
    (m : List (String × Value)) (beans : List Value)
    (hbeans : mapIndex m "beans" = Value.arr beans)
    (hobj : ∀ c ∈ beans, isObject c = true)
    (hnone : ∀ c ∈ beans, isTarget c = false) :
    (e.Collect ch (fetched (Value.obj m))).panic = none ∧
      gaugeValues (e.Collect ch (fetched (Value.obj m))).state.e = gaugeValues e := by
  have hwf : ∀ c ∈ beans, wellFormedBean c = true := by
    intro c hc
    simp [wellFormedBean, hobj c hc, hnone c hc]
  rw [Collect_of_beanList e ch _ beans (beanList_fetched m beans hbeans), sendGauges_panic,
    sendGauges_e]
  have hr := rangeLoop_wellFormed (loopEntry e ch (fetched (Value.obj m))) beans hwf
  refine ⟨hr.1, ?_⟩
  rw [hr.2, foldl_stepExporter_none _ beans hnone, (loopEntry_frame e ch _).1]

/-- Scenario B: a single bean named `java.lang:type=Other` leaves the gauges of a freshly built
exporter at 0. -/
theorem Collect_no_target_keeps_gauges_witness :
    ((NewExporter defaultUrl).Collect [] (fetched scenarioB)).panic = none ∧
      gaugeValues ((NewExporter defaultUrl).Collect [] (fetched scenarioB)).state.e =
        ({ bits := 0 }, { bits := 0 }, { bits := 0 }) :=
  Collect_no_target_keeps_gauges (NewExporter defaultUrl) [] [("beans", Value.arr [beanB])]
    [beanB] rfl (by decide) (by decide)

/-- Claim C6: last match wins. For every fetched document whose `beans` list consists of JSON objects
and holds two or more target beans, each with numeric MissingBlocks, CapacityTotal and
BlocksTotal, `Collect` returns and the three gauges hold the three values of the target bean
that comes last in the list. -/
theorem Collect_last_target_wins (e : Exporter) (ch : List Metric)
    (m : List (String × Value)) (beans : List Value) (b : Value) (x y z : Float64)
    (hbeans : mapIndex m "beans" = Value.arr beans)
    (hobj : ∀ c ∈ beans, isObject c = true)
    (hnum : ∀ c ∈ beans, isTarget c = true → (fieldsOf c).isSome = true)
    (_htwo : 2 ≤ (beans.filter isTarget).length)
    (hlast : (beans.filter isTarget).getLast? = some b)
    (hf : fieldsOf b = some (x, y, z)) :
    (e.Collect ch (fetched (Value.obj m))).panic = none ∧
      gaugeValues (e.Collect ch (fetched (Value.obj m))).state.e = (x, y, z) := by
  have htb : isTarget b = true :=
    (List.mem_filter.1 (List.mem_of_getLast?_eq_some hlast)).2
  have hwf : ∀ c ∈ beans, wellFormedBean c = true := by
    intro c hc
    cases ht : isTarget c with
    | false => simp [wellFormedBean, hobj c hc, ht]
    | true => simp [wellFormedBean, hobj c hc, hnum c hc ht]
  rw [Collect_of_beanList e ch _ beans (beanList_fetched m beans hbeans), sendGauges_panic,
    sendGauges_e]
  have hr := rangeLoop_wellFormed (loopEntry e ch (fetched (Value.obj m))) beans hwf
  refine ⟨hr.1, ?_⟩
  rw [hr.2, ← foldl_stepExporter_filter]
  exact foldl_stepExporter_last _ _ b x y z hlast htb hf

/-- Two target beans with another bean between them: the gauges end at the numbers of the
second. -/
theorem Collect_last_target_wins_witness :
    ((NewExporter defaultUrl).Collect []
        (fetched (Value.obj [("beans", Value.arr [beanA, beanOther, beanA2])]))).panic = none ∧
      gaugeValues ((NewExporter defaultUrl).Collect []
        (fetched (Value.obj [("beans", Value.arr [beanA, beanOther, beanA2])]))).state.e =
        (float50, float3, float1000) :=
  Collect_last_target_wins (NewExporter defaultUrl) []
    [("beans", Value.arr [beanA, beanOther, beanA2])] [beanA, beanOther, beanA2] beanA2
    float50 float3 float1000 rfl (by decide) (by decide) (by decide) rfl rfl

/-- Claim C3, refuted as stated: not every fetch outcome lets `Collect` return. A body that decodes to
the empty JSON object, which has no `beans` list, ends the call in a panic. -/
theorem Collect_may_panic :
    ¬ ∀ (e : Exporter) (ch : List Metric) (net : Fetch), (e.Collect ch net).panic = none := by
  intro h
  have h1 := h (NewExporter defaultUrl) [] (fetched (Value.obj []))
  revert h1
  decide

/-- Claim C3, amended: for every exporter state and every body fetched and decoded without error,
`Collect` returns exactly when the document is a JSON object whose `beans` value is a list of
JSON objects in which every target bean has numeric MissingBlocks, CapacityTotal and
BlocksTotal; on every other decoded document it ends in a type-assertion panic. -/
theorem Collect_panic_of_decoded (e : Exporter) (ch : List Metric) (doc : Value) :
    (e.Collect ch (fetched doc)).panic =
      if wellFormedDoc doc = true then none else some Panic.typeAssertion := by
  cases hl : (fetched doc).beanList with
  | some beans =>
    rw [Collect_of_beanList e ch _ beans hl, sendGauges_panic, rangeLoop_panic]
    cases doc with
    | obj m =>
      simp only [fetched, Fetch.beanList] at hl
      cases hb : mapIndex m "beans" with
      | arr l =>
        rw [hb] at hl
        simp only [Option.some.injEq] at hl
        subst hl
        simp [wellFormedDoc, hb]
      | _ => simp [hb] at hl
    | _ => simp [fetched, Fetch.beanList] at hl
  | none =>
    have hw : wellFormedDoc doc = false := by
      cases doc with
      | obj m =>
        simp only [fetched, Fetch.beanList] at hl
        cases hb : mapIndex m "beans" with
        | arr l => simp [hb] at hl
        | _ => simp [wellFormedDoc, hb]
      | _ => rfl
    rw [hw]
    cases doc with
    | obj m =>
      simp only [fetched, Fetch.beanList] at hl
      cases hb : mapIndex m "beans" with
      | arr l => simp [hb] at hl
      | _ => simp [Exporter.Collect, fetched, hb]
    | _ => simp [Exporter.Collect, fetched]

/-- Claim C4, refuted as stated: a failed `Collect` can leave a gauge changed. On a target bean with a
numeric MissingBlocks and no CapacityTotal the call panics after MissingBlocks was set. -/
theorem Collect_failure_not_atomic :
    ¬ ∀ (e : Exporter) (ch : List Metric) (net : Fetch),
        (e.Collect ch net).panic ≠ none →
          gaugeValues (e.Collect ch net).state.e = gaugeValues e := by
  intro h
  have h1 := h (NewExporter defaultUrl) []
    (fetched (Value.obj [("beans", Value.arr [beanNoCapacity])])) (by decide)
  revert h1
  decide

/-- Claim C4, amended: for every exporter state and every fetch outcome, if `Collect` does not
return and no `Set` ran before the failure, then all three gauges hold their values of before
the call. No `Set` ran when the call got no bean list (there is no response, or the value the
decoder left in `f`, with or without a reported error, is not a JSON object binding `beans` to a
list), and when no element of the bean list the loop got to, up to and including the one it
failed on, is a target bean with a numeric MissingBlocks. -/
theorem Collect_failed_keeps_gauges (e : Exporter) (ch : List Metric) (net : Fetch)
    (_hfail : (e.Collect ch net).panic ≠ none)
    (hreach : ∀ beans, net.beanList = some beans →
      ∀ b ∈ reachedBeans beans, updatesGauge b = false) :
    gaugeValues (e.Collect ch net).state.e = gaugeValues e := by
  cases hl : net.beanList with
  | none => rw [(Collect_of_no_beanList e ch net hl).1]
  | some beans =>
    rw [Collect_of_beanList e ch net beans hl, sendGauges_e,
      rangeLoop_no_update _ beans (hreach beans hl), (loopEntry_frame e ch net).1]

/-- A body on which the decoder reported an error and stored a bean list that holds a number
where a bean should be, after the bean of Scenario B: the call panics and the gauges set by
Scenario A stay. -/
theorem Collect_failed_keeps_gauges_witness :
    (((NewExporter defaultUrl).Collect [] (fetched scenarioA)).state.e.Collect []
        (storedWithError
          (Value.obj [("beans", Value.arr [beanB, Value.num float50, beanA2])]))).panic
      ≠ none ∧
    gaugeValues
      (((NewExporter defaultUrl).Collect [] (fetched scenarioA)).state.e.Collect []
        (storedWithError
          (Value.obj [("beans", Value.arr [beanB, Value.num float50, beanA2])]))).state.e
      = (float3, float1000, float50) :=
  ⟨by decide,
   (Collect_failed_keeps_gauges
      ((NewExporter defaultUrl).Collect [] (fetched scenarioA)).state.e []
      (storedWithError (Value.obj [("beans", Value.arr [beanB, Value.num float50, beanA2])]))
      (by decide)
      (by
        intro beans hb
        have hl : (storedWithError
            (Value.obj [("beans", Value.arr [beanB, Value.num float50, beanA2])])).beanList =
            some [beanB, Value.num float50, beanA2] := rfl
        rw [hl] at hb
        have hb2 : beans = [beanB, Value.num float50, beanA2] := (Option.some.inj hb).symm
        subst hb2
        decide)).trans (by decide)⟩

/-- Claim C5: for every exporter state, if `http.Get` gives no response, or the value the decoder
left in `f` for the body of the response is not a JSON object that binds `beans` to a list
(`nil` after a body that is no JSON), then after `Collect` all three gauges hold their values of
before the call. -/
theorem Collect_without_bean_list_keeps_gauges (e : Exporter) (ch : List Metric) (net : Fetch)
    (h : net.resp = none ∨
      ∃ r, net.resp = some r ∧
        ∀ m beans, r.f = Value.obj m → mapIndex m "beans" ≠ Value.arr beans) :
    gaugeValues (e.Collect ch net).state.e = gaugeValues e := by
  have hl : net.beanList = none := by
    obtain ⟨g, resp⟩ := net
    rcases h with h | ⟨r, hr, hno⟩
    · simp only at h
      simp [Fetch.beanList, h]
    · simp only at hr
      obtain ⟨rd, ue, doc⟩ := r
      cases doc with
      | obj m =>
        cases hb : mapIndex m "beans" with
        | arr l => exact absurd hb (hno m l rfl)
        | _ => simp [Fetch.beanList, hr, hb]
      | _ => simp [Fetch.beanList, hr]
  rw [(Collect_of_no_beanList e ch net hl).1]

/-- Scenario C: a scrape of an unreachable source after the scrape of Scenario A leaves the
gauges at 3, 1000.0 and 50. -/
theorem Collect_without_bean_list_keeps_gauges_witness :
    gaugeValues
      (((NewExporter defaultUrl).Collect [] (fetched scenarioA)).state.e.Collect []
        unreachableSource).state.e = (float3, float1000, float50) :=
  (Collect_without_bean_list_keeps_gauges
    ((NewExporter defaultUrl).Collect [] (fetched scenarioA)).state.e [] unreachableSource
    (Or.inl rfl)).trans (by decide)

/-- Claim C7: a malformed target bean fails loudly. For every fetched document whose `beans` list
holds a target bean in which MissingBlocks, CapacityTotal or BlocksTotal is absent or is not a
JSON number, `Collect` ends in a type-assertion panic. -/
theorem Collect_malformed_target_panics (e : Exporter) (ch : List Metric)
    (m : List (String × Value)) (beans : List Value) (kvs : List (String × Value))
    (hbeans : mapIndex m "beans" = Value.arr beans)
    (hmem : Value.obj kvs ∈ beans)
    (htarget : isTarget (Value.obj kvs) = true)
    (hbad : numField? kvs "MissingBlocks" = none ∨ numField? kvs "CapacityTotal" = none ∨
      numField? kvs "BlocksTotal" = none) :
    (e.Collect ch (fetched (Value.obj m))).panic = some Panic.typeAssertion := by
  have hf : fieldsOf (Value.obj kvs) = none := by
    cases hc : fieldsOf (Value.obj kvs) with
    | none => rfl
    | some t =>
      obtain ⟨x, y, z⟩ := t
      rw [fieldsOf_eq_some] at hc
      rcases hbad with h | h | h
      · rw [hc.1] at h; cases h
      · rw [hc.2.1] at h; cases h
      · rw [hc.2.2] at h; cases h
  have hw : wellFormedBean (Value.obj kvs) = false := by
    simp [wellFormedBean, htarget, hf]
  have hall : beans.all wellFormedBean = false := by
    cases hc : beans.all wellFormedBean with
    | false => rfl
    | true =>
      rw [List.all_eq_true] at hc
      rw [hc _ hmem] at hw
      cases hw
  rw [Collect_of_beanList e ch _ beans (beanList_fetched m beans hbeans), sendGauges_panic,
    rangeLoop_panic, hall]
  simp

/-- A target bean without CapacityTotal and BlocksTotal, after the bean of Scenario B. -/
theorem Collect_malformed_target_panics_witness :
    ((NewExporter defaultUrl).Collect []
      (fetched (Value.obj [("beans", Value.arr [beanB, beanNoCapacity])]))).panic =
        some Panic.typeAssertion :=
  Collect_malformed_target_panics (NewExporter defaultUrl) []
    [("beans", Value.arr [beanB, beanNoCapacity])] [beanB, beanNoCapacity]
    [("name", Value.str "Hadoop:service=NameNode,name=FSNamesystem"),
     ("MissingBlocks", Value.num float3)]
    rfl (List.mem_cons_of_mem _ (List.mem_cons_self _ _)) rfl (Or.inr (Or.inl rfl))

/-- Claim C8: whenever `Collect` returns, it has sent exactly three metrics on the channel, those of
MissingBlocks, CapacityTotal and BlocksTotal in this order, each with the value its gauge holds
at the end of the call: the value of before the call when the bean list held no target bean,
and the field of the last target bean when it held one. -/
theorem Collect_sends_three_metrics (e : Exporter) (ch : List Metric) (net : Fetch)
    (h : (e.Collect ch net).panic = none) :
    (e.Collect ch net).state.ch = ch ++
        [{ desc := e.MissingBlocks.desc, value := (e.Collect ch net).state.e.MissingBlocks.val },
         { desc := e.CapacityTotal.desc, value := (e.Collect ch net).state.e.CapacityTotal.val },
         { desc := e.BlocksTotal.desc, value := (e.Collect ch net).state.e.BlocksTotal.val }] ∧
      ∃ beans, net.beanList = some beans ∧
        (beans.filter isTarget = [] →
          gaugeValues (e.Collect ch net).state.e = gaugeValues e) ∧
        (∀ b, (beans.filter isTarget).getLast? = some b →
          fieldsOf b = some (gaugeValues (e.Collect ch net).state.e)) := by
  cases hl : net.beanList with
  | none => exact absurd h (Collect_of_no_beanList e ch net hl).2.2
  | some beans =>
    rw [Collect_of_beanList e ch net beans hl] at h ⊢
    rw [sendGauges_panic] at h
    have hwf : ∀ c ∈ beans, wellFormedBean c = true := by
      rw [rangeLoop_panic] at h
      by_cases hc : beans.all wellFormedBean = true
      · exact List.all_eq_true.1 hc
      · rw [if_neg hc] at h
        cases h
    have hr := rangeLoop_wellFormed (loopEntry e ch net) beans hwf
    have hfr := rangeLoop_frame (loopEntry e ch net) beans
    have hen := loopEntry_frame e ch net
    rw [hen.1] at hr hfr
    refine ⟨?_, beans, rfl, ?_, ?_⟩
    · rw [sendGauges_ch _ h, sendGauges_e, rangeLoop_ch, hen.2, hfr.2.1, hfr.2.2.1, hfr.2.2.2]
    · intro hnone
      rw [sendGauges_e, hr.2, ← foldl_stepExporter_filter, hnone]
      rfl
    · intro b hb
      have hm := List.mem_filter.1 (List.mem_of_getLast?_eq_some hb)
      have hwb := hwf b hm.1
      cases hf : fieldsOf b with
      | none => simp [wellFormedBean, hm.2, hf] at hwb
      | some t =>
        obtain ⟨x, y, z⟩ := t
        rw [sendGauges_e, hr.2, ← foldl_stepExporter_filter,
          foldl_stepExporter_last e _ b x y z hb hm.2 hf]

/-- The scrape of Scenario A sends the three metrics with the values 3, 1000.0 and 50. -/
theorem Collect_sends_three_metrics_witness :
    ((NewExporter defaultUrl).Collect [] (fetched scenarioA)).state.ch =
      [{ desc := { fqName := "namenode_MissingBlocks", help := "MissingBlocks" },
         value := float3 },
       { desc := { fqName := "namenode_CapacityTotal", help := "CapacityTotal" },
         value := float1000 },
       { desc := { fqName := "namenode_BlocksTotal", help := "BlocksTotal" },
         value := float50 }] :=
  (Collect_sends_three_metrics (NewExporter defaultUrl) [] (fetched scenarioA)
    (by decide)).1.trans (by decide)

/-- Claim C9: for every exporter built by `NewExporter`, `Describe` leaves the exporter, its url and
gauge values included, as it was and sends exactly three descriptors, in order, whose fully
qualified names are namenode_MissingBlocks, namenode_CapacityTotal and namenode_BlocksTotal,
with the help texts MissingBlocks, CapacityTotal and BlocksTotal. -/
theorem Describe_sends_three_descriptors (url : String) (ch : List Desc) :
    ((NewExporter url).Describe ch).1 = NewExporter url ∧
      ((NewExporter url).Describe ch).2 = ch ++
        [{ fqName := "namenode_MissingBlocks", help := "MissingBlocks" },
         { fqName := "namenode_CapacityTotal", help := "CapacityTotal" },
         { fqName := "namenode_BlocksTotal", help := "BlocksTotal" }] := by
  refine ⟨rfl, ?_⟩
  simp only [Exporter.Describe, Gauge.Describe, List.append_assoc, List.singleton_append]
  rfl

/-- Claim C10: other beans are inert. In a fetched document whose `beans` list consists of JSON
objects, the loop body passes a bean whose `name` is absent, is not a string, or is a string
other than the target name, leaving the state as it was whatever else the bean carries; and
the call on the list with every such bean removed ends as the call on the whole list does, in
the same state and with the same panic or none. -/
theorem Collect_ignores_other_beans (e : Exporter) (ch : List Metric)
    (m m2 : List (String × Value)) (beans : List Value)
    (hbeans : mapIndex m "beans" = Value.arr beans)
    (hbeans2 : mapIndex m2 "beans" = Value.arr (beans.filter isTarget))
    (hobj : ∀ c ∈ beans, isObject c = true) :
    (∀ (s : CollectState) (kvs : List (String × Value)),
        (mapGet? kvs "name" = none ∨
          (∃ v, mapGet? kvs "name" = some v ∧ ∀ t, v ≠ Value.str t) ∨
          (∃ t, mapGet? kvs "name" = some (Value.str t) ∧ t ≠ targetName)) →
        loopBody s (Value.obj kvs) = { state := s, panic := none }) ∧
      e.Collect ch (fetched (Value.obj m2)) = e.Collect ch (fetched (Value.obj m)) := by
  constructor
  · intro s kvs hname
    apply loopBody_skip
    unfold isTarget
    rcases hname with h | ⟨v, h, hv⟩ | ⟨t, h, ht⟩
    · simp [h]
    · cases v with
      | str t => exact absurd rfl (hv t)
      | _ => simp [h]
    · simpa [h, targetName] using ht
  · rw [Collect_of_beanList e ch _ beans (beanList_fetched m beans hbeans),
      Collect_of_beanList e ch _ _ (beanList_fetched m2 _ hbeans2)]
    have hentry :
        loopEntry e ch (fetched (Value.obj m2)) = loopEntry e ch (fetched (Value.obj m)) := rfl
    rw [hentry, rangeLoop_filter _ beans hobj]

/-- A list of a bean of another name with fields that are no numbers, the bean of Scenario A
and the bean of Scenario B, against the list of the bean of Scenario A alone. -/
theorem Collect_ignores_other_beans_witness :
    (NewExporter defaultUrl).Collect [] (fetched scenarioA) =
      (NewExporter defaultUrl).Collect []
        (fetched (Value.obj [("beans", Value.arr [beanOther, beanA, beanB])])) :=
  (Collect_ignores_other_beans (NewExporter defaultUrl) []
    [("beans", Value.arr [beanOther, beanA, beanB])] [("beans", Value.arr [beanA])]
    [beanOther, beanA, beanB] rfl rfl (by decide)).2

end NamenodeExporter
